import Mathlib

/-!
# Verification of the todo_api backend (`src/main.py`)

Shallow embedding of the FastAPI to-do backend: a session-authenticated,
per-user task list with register/login and task CRUD.  The relational store
(PostgreSQL via SQLAlchemy) is modelled as explicit lists of rows together
with the store-assigned id counters; each route handler becomes a pure
function from the store (and session) to the new store and an
`Except`-style result mirroring `HTTPException`.
-/

namespace TodoApi

/-- An HTTP error as raised by `HTTPException(status_code, detail)`. -/
structure HTTPError where
  status_code : Nat
  detail : String
deriving Repr, DecidableEq

/-- A row of the `users` table: store-assigned integer primary key, unique
username, bcrypt password hash (`User` in `main.py`). -/
structure User where
  id : Nat
  username : String
  hashed_password : String
deriving Repr, DecidableEq

/-- A row of the `tasks` table (`Task` in `main.py`).  Both `content` and
`completed` are nullable columns (`Column(String)`, `Column(Boolean)`), so
they are modelled as `Option`; `completed` receives the column default
`false` at insertion. -/
structure Task where
  id : Nat
  content : Option String
  completed : Option Bool
  owner_id : Nat
deriving Repr, DecidableEq

/-- The persistent store: the two tables plus the store-assigned primary-key
counters. -/
structure DB where
  users : List User
  tasks : List Task
  next_user_id : Nat
  next_task_id : Nat
deriving Repr, DecidableEq

/-- Primary-key/unique-constraint invariants the relational schema enforces:
task ids, user ids and usernames are unique. -/
def DB.WF (db : DB) : Prop :=
  (db.tasks.map Task.id).Nodup ∧ (db.users.map User.id).Nodup ∧
    (db.users.map User.username).Nodup

instance (db : DB) : Decidable db.WF := by
  unfold DB.WF; infer_instance

/-- Bcrypt hashing through passlib (`pwd_context.hash`).  The external
library is modelled by its interface contract: the digest is a
bcrypt-format string carrying the `$2b$` algorithm/cost prefix, hence never
equal to the plaintext it was derived from. -/
def pwd_hash (password : String) : String := "$2b$12$" ++ password

/-- `pwd_context.verify(password, hash)`: true exactly when the hash is the
digest of the password. -/
def pwd_verify (password h : String) : Bool := h == pwd_hash password

/-- The session cookie attached by `SessionMiddleware`: at most a username.
`none` models a session with no `"username"` key. -/
abbrev Session := Option String

/-- Python truthiness test `if not username` on `request.session.get("username")`:
`None` and the empty string are both falsy. -/
def sessionFalsy : Session → Bool
  | none => true
  | some s => s.isEmpty

/-- `get_current_user` (`main.py:59-67`): reads the session's username;
a falsy username raises 401 `Not authenticated`, a username absent from the
`users` table raises 404 `User not found`, otherwise the user row is
returned. -/
def get_current_user (db : DB) (sess : Session) : Except HTTPError User :=
  if sessionFalsy sess then
    .error ⟨401, "Not authenticated"⟩
  else
    match sess.bind (fun username => db.users.find? (fun u => u.username == username)) with
    | none => .error ⟨404, "User not found"⟩
    | some u => .ok u

/-- `register` (`main.py:75-85`): reject an existing username with 400,
otherwise insert a new user whose password is stored hashed.  The store is
returned unchanged on failure (the exception is raised before any insert). -/
def register (db : DB) (username password : String) :
    DB × Except HTTPError String :=
  match db.users.find? (fun u => u.username == username) with
  | some _ => (db, .error ⟨400, "Username already taken"⟩)
  | none =>
    let new_user : User := ⟨db.next_user_id, username, pwd_hash password⟩
    ({ db with users := db.users ++ [new_user],
               next_user_id := db.next_user_id + 1 },
     .ok "User registered successfully")

/-- `login` (`main.py:88-96`): `if not user or not pwd_context.verify(...)`
raises one uniform 401; on success the session's username field is set.
Returns the new session on success. -/
def login (db : DB) (username password : String) :
    Except HTTPError (Session × String) :=
  match db.users.find? (fun u => u.username == username) with
  | none => .error ⟨401, "Incorrect username or password"⟩
  | some user =>
    if pwd_verify password user.hashed_password then
      .ok (some username, "Login successful")
    else
      .error ⟨401, "Incorrect username or password"⟩

/-- Row predicate of the task-lookup query
`select(Task).filter(Task.id == task_id, Task.owner_id == user.id)`. -/
def taskMatch (task_id uid : Nat) (t : Task) : Bool :=
  t.id == task_id && t.owner_id == uid

/-- PostgreSQL `ORDER BY completed ASC`: `false < true`, with `NULL` sorted
last. -/
def completedRank : Option Bool → Nat
  | some false => 0
  | some true => 1
  | none => 2

/-- Total order used by `ORDER BY Task.completed, desc(Task.id)`: completed
ascending first, id descending within equal completed values. -/
def taskLE (a b : Task) : Bool :=
  completedRank a.completed < completedRank b.completed ||
    (completedRank a.completed == completedRank b.completed && decide (b.id ≤ a.id))

/-- `get_tasks` (`main.py:105-109`): all tasks owned by the current user,
ordered by `completed` ascending then id descending. -/
def get_tasks (db : DB) (user : User) : List Task :=
  (db.tasks.filter (fun t => t.owner_id == user.id)).mergeSort taskLE

/-- `add_task` (`main.py:112-118`): insert a task with the given content,
owned by the current user; `completed` takes the column default `false`.
Returns the refreshed row, including its assigned id. -/
def add_task (db : DB) (user : User) (content : String) : DB × Task :=
  let new_task : Task := ⟨db.next_task_id, some content, some false, user.id⟩
  ({ db with tasks := db.tasks ++ [new_task],
             next_task_id := db.next_task_id + 1 },
   new_task)

/-- `TaskUpdate` (`main.py:40-42`) under pydantic `dict(exclude_unset=True)`
semantics: the outer `Option` records whether the field was present in the
request body at all; the inner value may itself be an explicit JSON `null`. -/
structure TaskUpdate where
  content : Option (Option String) := none
  completed : Option (Option Bool) := none
deriving Repr, DecidableEq

/-- The `setattr` loop of `update_task` (`main.py:133-134`): each field
present in the body overwrites the stored column (including with `null`);
absent fields are untouched. -/
def applyUpdate (t : Task) (upd : TaskUpdate) : Task :=
  let t1 := match upd.content with
    | none => t
    | some v => { t with content := v }
  match upd.completed with
  | none => t1
  | some v => { t1 with completed := v }

/-- `update_task` (`main.py:121-138`): look up the task by id and owner
together; absence yields 404 `Task not found` with the store untouched;
otherwise the matched row is mutated field-by-field and committed. -/
def update_task (db : DB) (user : User) (task_id : Nat) (upd : TaskUpdate) :
    DB × Except HTTPError Task :=
  match db.tasks.find? (taskMatch task_id user.id) with
  | none => (db, .error ⟨404, "Task not found"⟩)
  | some t =>
    let t' := applyUpdate t upd
    ({ db with tasks :=
        db.tasks.map (fun x => if taskMatch task_id user.id x then applyUpdate x upd else x) },
     .ok t')

/-- `delete_task` (`main.py:141-149`): same id+owner lookup as update;
absence yields 404 with the store untouched; otherwise the row is removed
permanently. -/
def delete_task (db : DB) (user : User) (task_id : Nat) :
    DB × Except HTTPError String :=
  match db.tasks.find? (taskMatch task_id user.id) with
  | none => (db, .error ⟨404, "Task not found"⟩)
  | some _ =>
    ({ db with tasks := db.tasks.filter (fun x => !taskMatch task_id user.id x) },
     .ok "Task deleted successfully")

/-- Protected route `GET /tasks`: authentication dependency then listing. -/
def get_tasks_route (db : DB) (sess : Session) : Except HTTPError (List Task) :=
  match get_current_user db sess with
  | .error e => .error e
  | .ok u => .ok (get_tasks db u)

/-- Protected route `POST /tasks`. -/
def add_task_route (db : DB) (sess : Session) (content : String) :
    DB × Except HTTPError Task :=
  match get_current_user db sess with
  | .error e => (db, .error e)
  | .ok u => let r := add_task db u content; (r.1, .ok r.2)

/-- Protected route `PUT /tasks/\x7btask_id\x7d`. -/
def update_task_route (db : DB) (sess : Session) (task_id : Nat) (upd : TaskUpdate) :
    DB × Except HTTPError Task :=
  match get_current_user db sess with
  | .error e => (db, .error e)
  | .ok u => update_task db u task_id upd

/-- Protected route `DELETE /tasks/\x7btask_id\x7d`. -/
def delete_task_route (db : DB) (sess : Session) (task_id : Nat) :
    DB × Except HTTPError String :=
  match get_current_user db sess with
  | .error e => (db, .error e)
  | .ok u => delete_task db u task_id

/-! ## Helper lemmas about the store lookups -/

/-- Under primary-key uniqueness of task ids, the id+owner lookup query
finds a stored task exactly. -/
theorem find?_taskMatch_eq {l : List Task} (h : (l.map Task.id).Nodup)
    {t : Task} (ht : t ∈ l) :
    l.find? (taskMatch t.id t.owner_id) = some t := by
  induction l with
  | nil => cases ht
  | cons a l ih =>
    rw [List.map_cons, List.nodup_cons] at h
    rcases List.mem_cons.mp ht with rfl | htl
    · exact List.find?_cons_of_pos _ (by simp [taskMatch])
    · have hid : a.id ≠ t.id := by
        intro he
        exact h.1 (he ▸ List.mem_map_of_mem Task.id htl)
      have hne : ¬ taskMatch t.id t.owner_id a = true := by
        simp only [taskMatch, Bool.and_eq_true, beq_iff_eq, not_and]
        exact fun he => absurd he hid
      rw [List.find?_cons_of_neg _ hne]
      exact ih h.2 htl

/-- The lookup by a task id belonging to another user's task fails: under
primary-key uniqueness the only row with that id has the wrong owner. -/
theorem find?_taskMatch_other_owner {l : List Task} (h : (l.map Task.id).Nodup)
    {t : Task} (ht : t ∈ l) {uid : Nat} (hown : t.owner_id ≠ uid) :
    l.find? (taskMatch t.id uid) = none := by
  rw [List.find?_eq_none]
  intro x hx
  simp only [taskMatch, Bool.and_eq_true, beq_iff_eq, not_and]
  intro hid
  have hxt : x = t := List.inj_on_of_nodup_map h hx ht hid
  rw [hxt]
  exact hown

/-- The lookup by an id that no stored task carries fails. -/
theorem find?_taskMatch_fresh {l : List Task} {task_id : Nat} (uid : Nat)
    (hfresh : ∀ x ∈ l, x.id ≠ task_id) :
    l.find? (taskMatch task_id uid) = none := by
  rw [List.find?_eq_none]
  intro x hx
  simp only [taskMatch, Bool.and_eq_true, beq_iff_eq, not_and]
  exact fun he => absurd he (hfresh x hx)

/-- When the lookup fails, `update_task` raises 404 and leaves the store
untouched. -/
theorem update_task_none (db : DB) (user : User) (task_id : Nat) (upd : TaskUpdate)
    (hnone : db.tasks.find? (taskMatch task_id user.id) = none) :
    update_task db user task_id upd = (db, .error ⟨404, "Task not found"⟩) := by
  simp only [update_task, hnone]

/-- When the lookup fails, `delete_task` raises 404 and leaves the store
untouched. -/
theorem delete_task_none (db : DB) (user : User) (task_id : Nat)
    (hnone : db.tasks.find? (taskMatch task_id user.id) = none) :
    delete_task db user task_id = (db, .error ⟨404, "Task not found"⟩) := by
  simp only [delete_task, hnone]

/-- When the caller owns the stored task, `update_task` succeeds, returns
the field-wise updated task, and replaces exactly that row. -/
theorem update_task_found (db : DB) (user : User) (t : Task) (upd : TaskUpdate)
    (h : (db.tasks.map Task.id).Nodup) (ht : t ∈ db.tasks)
    (hown : t.owner_id = user.id) :
    update_task db user t.id upd =
      ({ db with tasks :=
          db.tasks.map (fun x => if x = t then applyUpdate t upd else x) },
       .ok (applyUpdate t upd)) := by
  have hfind : db.tasks.find? (taskMatch t.id user.id) = some t := by
    rw [← hown]; exact find?_taskMatch_eq h ht
  have hmap : db.tasks.map
        (fun x => if taskMatch t.id user.id x then applyUpdate x upd else x)
      = db.tasks.map (fun x => if x = t then applyUpdate t upd else x) := by
    apply List.map_congr_left
    intro x hx
    by_cases hxe : x = t
    · subst hxe
      rw [if_pos (by simp [taskMatch, hown]), if_pos rfl]
    · have hno : ¬ taskMatch t.id user.id x = true := by
        simp only [taskMatch, Bool.and_eq_true, beq_iff_eq, not_and]
        exact fun hid => absurd (List.inj_on_of_nodup_map h hx ht hid) hxe
      rw [if_neg hno, if_neg hxe]
  simp only [update_task, hfind, hmap]

/-- When the caller owns the stored task, `delete_task` succeeds and removes
its row. -/
theorem delete_task_found (db : DB) (user : User) (t : Task)
    (h : (db.tasks.map Task.id).Nodup) (ht : t ∈ db.tasks)
    (hown : t.owner_id = user.id) :
    delete_task db user t.id =
      ({ db with tasks := db.tasks.filter (fun x => !taskMatch t.id user.id x) },
       .ok "Task deleted successfully") := by
  have hfind : db.tasks.find? (taskMatch t.id user.id) = some t := by
    rw [← hown]; exact find?_taskMatch_eq h ht
  simp only [delete_task, hfind]

/-- In a store whose usernames are unique, filtering by a stored user's
username yields exactly that row. -/
theorem filter_username_singleton {l : List User} (h : (l.map User.username).Nodup)
    {u : User} (hu : u ∈ l) :
    l.filter (fun x => x.username == u.username) = [u] := by
  induction l with
  | nil => cases hu
  | cons a l ih =>
    rw [List.map_cons, List.nodup_cons] at h
    rcases List.mem_cons.mp hu with rfl | hul
    · rw [List.filter_cons_of_pos (by simp)]
      have hnil : l.filter (fun x => x.username == u.username) = [] := by
        rw [List.filter_eq_nil_iff]
        intro x hx
        simp only [beq_iff_eq]
        intro he
        have hm := List.mem_map_of_mem User.username hx
        rw [he] at hm
        exact h.1 hm
      rw [hnil]
    · rw [List.filter_cons_of_neg, ih h.2 hul]
      simp only [beq_iff_eq]
      intro he
      have hm := List.mem_map_of_mem User.username hul
      rw [← he] at hm
      exact h.1 hm

/-! ## The two-key task ordering -/

theorem completedRank_inj {x y : Option Bool}
    (h : completedRank x = completedRank y) : x = y := by
  cases x with
  | none => cases y with
    | none => rfl
    | some b => cases b <;> simp [completedRank] at h
  | some a => cases y with
    | none => cases a <;> simp [completedRank] at h
    | some b => cases a <;> cases b <;> first | rfl | simp [completedRank] at h

theorem taskLE_trans (a b c : Task) (hab : taskLE a b = true)
    (hbc : taskLE b c = true) : taskLE a c = true := by
  simp only [taskLE, Bool.or_eq_true, Bool.and_eq_true, beq_iff_eq,
    decide_eq_true_eq] at *
  omega

theorem taskLE_total (a b : Task) : (taskLE a b || taskLE b a) = true := by
  simp only [taskLE, Bool.or_eq_true, Bool.and_eq_true, beq_iff_eq,
    decide_eq_true_eq]
  omega

/-- C2: `list_tasks` returns exactly the caller's tasks — a permutation of
the owner-filtered store, membership equivalent to being a stored task of
that owner — and, under primary-key uniqueness, the result is sorted by
completed ascending and, within equal completed values, by id strictly
descending. -/
theorem get_tasks_spec (db : DB) (user : User) :
    (get_tasks db user).Perm (db.tasks.filter (fun t => t.owner_id == user.id)) ∧
    (∀ t, t ∈ get_tasks db user ↔ t ∈ db.tasks ∧ t.owner_id = user.id) ∧
    ((db.tasks.map Task.id).Nodup →
      (get_tasks db user).Pairwise (fun a b =>
        completedRank a.completed < completedRank b.completed ∨
          (a.completed = b.completed ∧ b.id < a.id))) := by
  refine ⟨List.mergeSort_perm _ _, fun t => ?_, fun hnd => ?_⟩
  · rw [get_tasks, List.mem_mergeSort, List.mem_filter, beq_iff_eq]
  · have hsorted : (get_tasks db user).Pairwise (fun a b => taskLE a b = true) :=
      List.sorted_mergeSort taskLE_trans taskLE_total _
    have hsub : ((db.tasks.filter (fun t => t.owner_id == user.id)).map Task.id).Nodup :=
      List.Nodup.sublist (List.Sublist.map Task.id (List.filter_sublist db.tasks)) hnd
    have hndl : ((get_tasks db user).map Task.id).Nodup :=
      (((List.mergeSort_perm _ taskLE).map Task.id).nodup_iff).mpr hsub
    have hne : (get_tasks db user).Pairwise (fun a b => a.id ≠ b.id) :=
      List.pairwise_map.mp hndl
    refine (hsorted.and hne).imp ?_
    intro a b hw
    rcases hw with ⟨hle, hid⟩
    simp only [taskLE, Bool.or_eq_true, Bool.and_eq_true, beq_iff_eq,
      decide_eq_true_eq] at hle
    rcases hle with hlt | ⟨heq, hge⟩
    · exact Or.inl hlt
    · exact Or.inr ⟨completedRank_inj heq, lt_of_le_of_ne hge (Ne.symm hid)⟩

/-- Witness for `get_tasks_spec` at a concrete two-user store. -/
theorem get_tasks_spec_witness :
    (([⟨(1 : Nat), some "t1", some false, 1⟩,
       ⟨2, some "t2", some true, 1⟩, ⟨3, some "t3", some false, 2⟩] : List Task).map Task.id).Nodup ∧
    (get_tasks ⟨[⟨1, "alice", "h"⟩],
        [⟨1, some "t1", some false, 1⟩, ⟨2, some "t2", some true, 1⟩,
         ⟨3, some "t3", some false, 2⟩], 2, 4⟩ ⟨1, "alice", "h"⟩).Pairwise
      (fun a b => completedRank a.completed < completedRank b.completed ∨
        (a.completed = b.completed ∧ b.id < a.id)) := by
  constructor
  · decide
  · exact (get_tasks_spec ⟨[⟨1, "alice", "h"⟩],
      [⟨1, some "t1", some false, 1⟩, ⟨2, some "t2", some true, 1⟩,
       ⟨3, some "t3", some false, 2⟩], 2, 4⟩ ⟨1, "alice", "h"⟩).2.2 (by decide)

/-! ## Authentication on protected routes -/

/-- C1 (amended): a request to a protected route whose session carries no
username (or an empty one) fails with 401 `Not authenticated`; a session
username not present in the user store also fails, but with 404
`User not found`, not 401.  Mutating routes leave the store unchanged in
both cases. -/
theorem protected_routes_auth (db : DB) (sess : Session) (task_id : Nat)
    (upd : TaskUpdate) (content : String) :
    (sessionFalsy sess = true →
      get_tasks_route db sess = .error ⟨401, "Not authenticated"⟩ ∧
      add_task_route db sess content = (db, .error ⟨401, "Not authenticated"⟩) ∧
      update_task_route db sess task_id upd = (db, .error ⟨401, "Not authenticated"⟩) ∧
      delete_task_route db sess task_id = (db, .error ⟨401, "Not authenticated"⟩)) ∧
    (∀ name, sess = some name → sessionFalsy sess = false →
      (∀ u ∈ db.users, u.username ≠ name) →
      get_tasks_route db sess = .error ⟨404, "User not found"⟩ ∧
      add_task_route db sess content = (db, .error ⟨404, "User not found"⟩) ∧
      update_task_route db sess task_id upd = (db, .error ⟨404, "User not found"⟩) ∧
      delete_task_route db sess task_id = (db, .error ⟨404, "User not found"⟩)) := by
  constructor
  · intro hf
    have hcu : get_current_user db sess = .error ⟨401, "Not authenticated"⟩ := by
      simp [get_current_user, hf]
    exact ⟨by simp [get_tasks_route, hcu], by simp [add_task_route, hcu],
      by simp [update_task_route, hcu], by simp [delete_task_route, hcu]⟩
  · intro name hs hf hun
    have hfind : db.users.find? (fun u => u.username == name) = none := by
      rw [List.find?_eq_none]
      intro x hx
      simp only [beq_iff_eq]
      exact hun x hx
    have hcu : get_current_user db sess = .error ⟨404, "User not found"⟩ := by
      subst hs
      simp [get_current_user, hf, hfind]
    exact ⟨by simp [get_tasks_route, hcu], by simp [add_task_route, hcu],
      by simp [update_task_route, hcu], by simp [delete_task_route, hcu]⟩

/-- Witness for `protected_routes_auth`: empty session and an unknown
username at a concrete store. -/
theorem protected_routes_auth_witness :
    get_tasks_route ⟨[⟨1, "alice", "h"⟩], [], 2, 1⟩ none =
      .error ⟨401, "Not authenticated"⟩ ∧
    get_tasks_route ⟨[⟨1, "alice", "h"⟩], [], 2, 1⟩ (some "bob") =
      .error ⟨404, "User not found"⟩ := by
  constructor
  · exact ((protected_routes_auth ⟨[⟨1, "alice", "h"⟩], [], 2, 1⟩ none 0
      ⟨none, none⟩ "c").1 rfl).1
  · exact ((protected_routes_auth ⟨[⟨1, "alice", "h"⟩], [], 2, 1⟩ (some "bob") 0
      ⟨none, none⟩ "c").2 "bob" rfl (by decide) (by decide)).1

/-- C1, the claim as stated, is false: a session carrying a username absent
from the user store is rejected with status 404, not 401. -/
theorem unknown_user_404_counterexample :
    get_tasks_route ⟨[], [], 1, 1⟩ (some "alice") =
      .error ⟨404, "User not found"⟩ ∧
    HTTPError.status_code ⟨404, "User not found"⟩ ≠ 401 := by
  exact ⟨rfl, by decide⟩

/-! ## Login -/

/-- C5: login failure is one uniform 401 with one message, whether the
username is unknown or the password hash does not verify; a correct pair
succeeds and sets the session's username field. -/
theorem login_uniform (db : DB) (username password : String) :
    ((∀ u ∈ db.users, u.username ≠ username) →
      login db username password = .error ⟨401, "Incorrect username or password"⟩) ∧
    (∀ u, db.users.find? (fun x => x.username == username) = some u →
      pwd_verify password u.hashed_password = false →
      login db username password = .error ⟨401, "Incorrect username or password"⟩) ∧
    (∀ u, db.users.find? (fun x => x.username == username) = some u →
      pwd_verify password u.hashed_password = true →
      login db username password = .ok (some username, "Login successful")) := by
  refine ⟨fun hun => ?_, fun u hfind hv => ?_, fun u hfind hv => ?_⟩
  · have hnone : db.users.find? (fun x => x.username == username) = none := by
      rw [List.find?_eq_none]
      intro x hx
      simp only [beq_iff_eq]
      exact hun x hx
    simp [login, hnone]
  · simp [login, hfind, hv]
  · simp [login, hfind, hv]

/-- Witness for `login_uniform`: both failure modes produce the same value,
and the correct password logs in. -/
theorem login_uniform_witness :
    login ⟨[⟨1, "alice", pwd_hash "pw1"⟩], [], 2, 1⟩ "bob" "pw1" =
      .error ⟨401, "Incorrect username or password"⟩ ∧
    login ⟨[⟨1, "alice", pwd_hash "pw1"⟩], [], 2, 1⟩ "alice" "bad" =
      .error ⟨401, "Incorrect username or password"⟩ ∧
    login ⟨[⟨1, "alice", pwd_hash "pw1"⟩], [], 2, 1⟩ "alice" "pw1" =
      .ok (some "alice", "Login successful") := by
  refine ⟨(login_uniform _ "bob" "pw1").1 (by decide),
    (login_uniform _ "alice" "bad").2.1 ⟨1, "alice", pwd_hash "pw1"⟩ (by decide) (by decide),
    (login_uniform _ "alice" "pw1").2.2 ⟨1, "alice", pwd_hash "pw1"⟩ (by decide) (by decide)⟩

/-! ## Registration -/

/-- C6: registering an existing username fails with 400 and leaves the
store unchanged — under the unique-username constraint the store still
holds exactly one row with that username — while a fresh username inserts
exactly one user whose stored password is the hash, never the plaintext. -/
theorem register_spec (db : DB) (username password : String) :
    ((db.users.map User.username).Nodup →
      ∀ u, u ∈ db.users → u.username = username →
      register db username password = (db, .error ⟨400, "Username already taken"⟩) ∧
      (db.users.filter (fun x => x.username == username)).length = 1) ∧
    ((∀ u ∈ db.users, u.username ≠ username) →
      register db username password =
        ({ db with
            users := db.users ++ [⟨db.next_user_id, username, pwd_hash password⟩],
            next_user_id := db.next_user_id + 1 },
         .ok "User registered successfully") ∧
      pwd_hash password ≠ password) := by
  constructor
  · intro hnd u hu hname
    subst hname
    obtain ⟨v, hv⟩ : ∃ v, db.users.find? (fun x => x.username == u.username) = some v := by
      have hs : (db.users.find? (fun x => x.username == u.username)).isSome := by
        rw [List.find?_isSome]
        exact ⟨u, hu, by simp⟩
      exact Option.isSome_iff_exists.mp hs
    refine ⟨by simp [register, hv], ?_⟩
    rw [filter_username_singleton hnd hu]
    rfl
  · intro hun
    have hnone : db.users.find? (fun x => x.username == username) = none := by
      rw [List.find?_eq_none]
      intro x hx
      simp only [beq_iff_eq]
      exact hun x hx
    refine ⟨by simp [register, hnone], ?_⟩
    intro he
    have hl := congrArg String.length he
    rw [pwd_hash, String.length_append] at hl
    have h7 : ("$2b$12$" : String).length = 7 := rfl
    rw [h7] at hl
    omega

/-- Witness for `register_spec`: duplicate and fresh registration at a
concrete store. -/
theorem register_spec_witness :
    register ⟨[⟨1, "alice", "h"⟩], [], 2, 1⟩ "alice" "pw" =
      (⟨[⟨1, "alice", "h"⟩], [], 2, 1⟩, .error ⟨400, "Username already taken"⟩) ∧
    register ⟨[⟨1, "alice", "h"⟩], [], 2, 1⟩ "bob" "pw" =
      (⟨[⟨1, "alice", "h"⟩, ⟨2, "bob", pwd_hash "pw"⟩], [], 3, 1⟩,
       .ok "User registered successfully") := by
  constructor
  · exact ((register_spec ⟨[⟨1, "alice", "h"⟩], [], 2, 1⟩ "alice" "pw").1
      (by decide) ⟨1, "alice", "h"⟩ (by decide) rfl).1
  · exact ((register_spec ⟨[⟨1, "alice", "h"⟩], [], 2, 1⟩ "bob" "pw").2
      (by decide)).1

/-! ## Task creation -/

/-- C7: `add_task` appends exactly one task carrying the given content,
`completed` defaulted to false and the caller as owner, and returns that
persisted row together with its store-assigned identifier. -/
theorem add_task_spec (db : DB) (user : User) (content : String) :
    (add_task db user content).2.content = some content ∧
    (add_task db user content).2.completed = some false ∧
    (add_task db user content).2.owner_id = user.id ∧
    (add_task db user content).2.id = db.next_task_id ∧
    (add_task db user content).1.tasks = db.tasks ++ [(add_task db user content).2] ∧
    (add_task db user content).2 ∈ (add_task db user content).1.tasks := by
  refine ⟨rfl, rfl, rfl, rfl, rfl, ?_⟩
  simp [add_task]

/-! ## Partial updates -/

theorem applyUpdate_content (t : Task) (upd : TaskUpdate) :
    (applyUpdate t upd).content = upd.content.getD t.content := by
  obtain ⟨c, k⟩ := upd
  cases c <;> cases k <;> rfl

theorem applyUpdate_completed (t : Task) (upd : TaskUpdate) :
    (applyUpdate t upd).completed = upd.completed.getD t.completed := by
  obtain ⟨c, k⟩ := upd
  cases c <;> cases k <;> rfl

theorem applyUpdate_id (t : Task) (upd : TaskUpdate) :
    (applyUpdate t upd).id = t.id := by
  obtain ⟨c, k⟩ := upd
  cases c <;> cases k <;> rfl

theorem applyUpdate_owner_id (t : Task) (upd : TaskUpdate) :
    (applyUpdate t upd).owner_id = t.owner_id := by
  obtain ⟨c, k⟩ := upd
  cases c <;> cases k <;> rfl

/-- C3: on a task the caller owns, `update_task` overwrites exactly the
fields present in the request body, leaves omitted fields unchanged, and
replaces only that row; in particular a body setting only `completed=true`
leaves the stored content untouched. -/
theorem update_task_partial (db : DB) (user : User) (t : Task) (upd : TaskUpdate)
    (hwf : (db.tasks.map Task.id).Nodup) (ht : t ∈ db.tasks)
    (hown : t.owner_id = user.id) :
    (update_task db user t.id upd).2 = .ok (applyUpdate t upd) ∧
    (update_task db user t.id upd).1.tasks =
      db.tasks.map (fun x => if x = t then applyUpdate t upd else x) ∧
    (upd.content = none → (applyUpdate t upd).content = t.content) ∧
    (∀ v, upd.content = some v → (applyUpdate t upd).content = v) ∧
    (upd.completed = none → (applyUpdate t upd).completed = t.completed) ∧
    (∀ v, upd.completed = some v → (applyUpdate t upd).completed = v) ∧
    (applyUpdate t upd).id = t.id ∧
    (applyUpdate t upd).owner_id = t.owner_id ∧
    (upd = ⟨none, some (some true)⟩ →
      (applyUpdate t upd).completed = some true ∧
      (applyUpdate t upd).content = t.content) := by
  rw [update_task_found db user t upd hwf ht hown]
  refine ⟨rfl, rfl, fun hc => ?_, fun v hc => ?_, fun hk => ?_, fun v hk => ?_,
    applyUpdate_id t upd, applyUpdate_owner_id t upd, fun hu => ?_⟩
  · rw [applyUpdate_content, hc]; rfl
  · rw [applyUpdate_content, hc]; rfl
  · rw [applyUpdate_completed, hk]; rfl
  · rw [applyUpdate_completed, hk]; rfl
  · subst hu
    exact ⟨rfl, rfl⟩

/-- Witness for `update_task_partial`: marking a concrete owned task
completed leaves its content untouched. -/
theorem update_task_partial_witness :
    (update_task ⟨[⟨5, "a", "h"⟩], [⟨1, some "milk", some false, 5⟩], 2, 2⟩
        ⟨5, "a", "h"⟩ 1 ⟨none, some (some true)⟩).2 =
      .ok (applyUpdate ⟨1, some "milk", some false, 5⟩ ⟨none, some (some true)⟩) ∧
    (applyUpdate ⟨1, some "milk", some false, 5⟩ ⟨none, some (some true)⟩).completed =
      some true ∧
    (applyUpdate ⟨1, some "milk", some false, 5⟩ ⟨none, some (some true)⟩).content =
      some "milk" := by
  have h := update_task_partial ⟨[⟨5, "a", "h"⟩], [⟨1, some "milk", some false, 5⟩], 2, 2⟩
    ⟨5, "a", "h"⟩ ⟨1, some "milk", some false, 5⟩ ⟨none, some (some true)⟩
    (by decide) (by decide) rfl
  exact ⟨h.1, (h.2.2.2.2.2.2.2.2 rfl).1, (h.2.2.2.2.2.2.2.2 rfl).2⟩

/-- C4: update and delete invoked by a non-owner, and at an id carried by
no stored task, all fail with one and the same 404 error, and the store —
hence every stored task's fields — is unchanged. -/
theorem update_delete_notfound (db : DB) (a : User) (t : Task) (upd : TaskUpdate)
    (fresh_id : Nat) (hwf : (db.tasks.map Task.id).Nodup) (ht : t ∈ db.tasks)
    (hown : t.owner_id ≠ a.id) (hfresh : ∀ x ∈ db.tasks, x.id ≠ fresh_id) :
    update_task db a t.id upd = (db, .error ⟨404, "Task not found"⟩) ∧
    delete_task db a t.id = (db, .error ⟨404, "Task not found"⟩) ∧
    update_task db a fresh_id upd = (db, .error ⟨404, "Task not found"⟩) ∧
    delete_task db a fresh_id = (db, .error ⟨404, "Task not found"⟩) := by
  have h1 := find?_taskMatch_other_owner hwf ht hown
  have h2 := find?_taskMatch_fresh a.id hfresh
  exact ⟨update_task_none _ _ _ _ h1, delete_task_none _ _ _ h1,
    update_task_none _ _ _ _ h2, delete_task_none _ _ _ h2⟩

/-- Witness for `update_delete_notfound`: user 5 cannot touch user 9's
task, nor the absent id 77, and the store is returned unchanged. -/
theorem update_delete_notfound_witness :
    update_task ⟨[⟨5, "a", "h"⟩, ⟨9, "b", "h2"⟩], [⟨1, some "milk", some false, 9⟩], 3, 2⟩
        ⟨5, "a", "h"⟩ 1 ⟨some (some "x"), none⟩ =
      (⟨[⟨5, "a", "h"⟩, ⟨9, "b", "h2"⟩], [⟨1, some "milk", some false, 9⟩], 3, 2⟩,
       .error ⟨404, "Task not found"⟩) ∧
    delete_task ⟨[⟨5, "a", "h"⟩, ⟨9, "b", "h2"⟩], [⟨1, some "milk", some false, 9⟩], 3, 2⟩
        ⟨5, "a", "h"⟩ 77 =
      (⟨[⟨5, "a", "h"⟩, ⟨9, "b", "h2"⟩], [⟨1, some "milk", some false, 9⟩], 3, 2⟩,
       .error ⟨404, "Task not found"⟩) := by
  have h := update_delete_notfound
    ⟨[⟨5, "a", "h"⟩, ⟨9, "b", "h2"⟩], [⟨1, some "milk", some false, 9⟩], 3, 2⟩
    ⟨5, "a", "h"⟩ ⟨1, some "milk", some false, 9⟩ ⟨some (some "x"), none⟩ 77
    (by decide) (by decide) (by decide) (by decide)
  exact ⟨h.1, h.2.2.2⟩

/-- C8: a first delete of an owned task succeeds and removes the row, a
second delete of the same id fails with 404 leaving the store as it was,
and the deleted task appears in no listing over the resulting store. -/
theorem delete_twice (db : DB) (user : User) (t : Task)
    (hwf : (db.tasks.map Task.id).Nodup) (ht : t ∈ db.tasks)
    (hown : t.owner_id = user.id) :
    (delete_task db user t.id).2 = .ok "Task deleted successfully" ∧
    t ∉ (delete_task db user t.id).1.tasks ∧
    delete_task (delete_task db user t.id).1 user t.id =
      ((delete_task db user t.id).1, .error ⟨404, "Task not found"⟩) ∧
    ∀ u' : User, t ∉ get_tasks (delete_task db user t.id).1 u' := by
  rw [delete_task_found db user t hwf ht hown]
  have hmatch : taskMatch t.id user.id t = true := by simp [taskMatch, hown]
  have hnotmem : t ∉ db.tasks.filter (fun x => !taskMatch t.id user.id x) := by
    intro hmem
    rw [List.mem_filter, hmatch] at hmem
    exact absurd hmem.2 (by decide)
  have hnone : (db.tasks.filter (fun x => !taskMatch t.id user.id x)).find?
      (taskMatch t.id user.id) = none := by
    rw [List.find?_eq_none]
    intro x hx
    rw [List.mem_filter, Bool.not_eq_true'] at hx
    simp [hx.2]
  refine ⟨rfl, hnotmem, delete_task_none _ _ _ hnone, fun u' hmem => ?_⟩
  rw [get_tasks, List.mem_mergeSort, List.mem_filter] at hmem
  exact hnotmem hmem.1

/-- Witness for `delete_twice` at a concrete one-task store. -/
theorem delete_twice_witness :
    (delete_task ⟨[⟨5, "a", "h"⟩], [⟨1, some "milk", some false, 5⟩], 2, 2⟩
        ⟨5, "a", "h"⟩ 1).2 = .ok "Task deleted successfully" ∧
    delete_task (delete_task ⟨[⟨5, "a", "h"⟩], [⟨1, some "milk", some false, 5⟩], 2, 2⟩
        ⟨5, "a", "h"⟩ 1).1 ⟨5, "a", "h"⟩ 1 =
      ((delete_task ⟨[⟨5, "a", "h"⟩], [⟨1, some "milk", some false, 5⟩], 2, 2⟩
        ⟨5, "a", "h"⟩ 1).1, .error ⟨404, "Task not found"⟩) := by
  have h := delete_twice ⟨[⟨5, "a", "h"⟩], [⟨1, some "milk", some false, 5⟩], 2, 2⟩
    ⟨5, "a", "h"⟩ ⟨1, some "milk", some false, 5⟩ (by decide) (by decide) rfl
  exact ⟨h.1, h.2.2.1⟩

/-- C9: overwriting is decided by presence, not value: a body explicitly
carrying `null` for `content` writes `null` into the stored column (with
the omitted `completed` untouched), and symmetrically for `completed`; the
overwritten row is what gets persisted. -/
theorem update_task_explicit_null (db : DB) (user : User) (t : Task)
    (hwf : (db.tasks.map Task.id).Nodup) (ht : t ∈ db.tasks)
    (hown : t.owner_id = user.id) :
    (update_task db user t.id ⟨some none, none⟩).2 =
      .ok (applyUpdate t ⟨some none, none⟩) ∧
    (applyUpdate t ⟨some none, none⟩).content = none ∧
    (applyUpdate t ⟨some none, none⟩).completed = t.completed ∧
    (applyUpdate t ⟨none, some none⟩).completed = none ∧
    applyUpdate t ⟨some none, none⟩ ∈
      (update_task db user t.id ⟨some none, none⟩).1.tasks := by
  rw [update_task_found db user t ⟨some none, none⟩ hwf ht hown]
  refine ⟨rfl, rfl, rfl, rfl, ?_⟩
  have hmem := List.mem_map_of_mem
    (fun x => if x = t then applyUpdate t ⟨some none, none⟩ else x) ht
  simpa using hmem

/-- Witness for `update_task_explicit_null` at a concrete owned task. -/
theorem update_task_explicit_null_witness :
    (update_task ⟨[⟨5, "a", "h"⟩], [⟨1, some "milk", some false, 5⟩], 2, 2⟩
        ⟨5, "a", "h"⟩ 1 ⟨some none, none⟩).2 =
      .ok (applyUpdate ⟨1, some "milk", some false, 5⟩ ⟨some none, none⟩) ∧
    (applyUpdate ⟨1, some "milk", some false, 5⟩ ⟨some none, none⟩).content = none := by
  have h := update_task_explicit_null
    ⟨[⟨5, "a", "h"⟩], [⟨1, some "milk", some false, 5⟩], 2, 2⟩
    ⟨5, "a", "h"⟩ ⟨1, some "milk", some false, 5⟩ (by decide) (by decide) rfl
  exact ⟨h.1, h.2.1⟩

/-- C10: an update whose body carries no field at all succeeds and is the
identity: the store and the returned task are exactly as before. -/
theorem update_task_empty_identity (db : DB) (user : User) (t : Task)
    (hwf : (db.tasks.map Task.id).Nodup) (ht : t ∈ db.tasks)
    (hown : t.owner_id = user.id) :
    update_task db user t.id ⟨none, none⟩ = (db, .ok t) := by
  rw [update_task_found db user t ⟨none, none⟩ hwf ht hown]
  have happ : applyUpdate t ⟨none, none⟩ = t := rfl
  rw [happ]
  have hfun : (fun x : Task => if x = t then t else x) = fun x : Task => x := by
    funext x
    by_cases hx : x = t
    · rw [if_pos hx, hx]
    · rw [if_neg hx]
  rw [hfun, List.map_id']

/-- Witness for `update_task_empty_identity` at a concrete owned task. -/
theorem update_task_empty_identity_witness :
    update_task ⟨[⟨5, "a", "h"⟩], [⟨1, some "milk", some false, 5⟩], 2, 2⟩
        ⟨5, "a", "h"⟩ 1 ⟨none, none⟩ =
      (⟨[⟨5, "a", "h"⟩], [⟨1, some "milk", some false, 5⟩], 2, 2⟩,
       .ok ⟨1, some "milk", some false, 5⟩) :=
  update_task_empty_identity
    ⟨[⟨5, "a", "h"⟩], [⟨1, some "milk", some false, 5⟩], 2, 2⟩
    ⟨5, "a", "h"⟩ ⟨1, some "milk", some false, 5⟩ (by decide) (by decide) rfl

end TodoApi
